import Mathlib

/-!
Verification development for the dharma-chess rules engine (src/game.c).

The C sources of game.c are embedded shallowly below: every function of
game.c becomes a Lean definition of the same name, loops become folds or
structural recursions, and the mutable struct game becomes a record that
is threaded through explicit state updates.  Machine integers are modelled
as Int (board coordinates, clocks) and Nat (piece bit flags, hash values);
the C bitwise operators map to Nat.land, Nat.lor and Nat.xor, with the
32-bit complements of the piece masks written out as explicit constants.

The header game.h is not part of src/.  The piece encoding it declares is
modelled from the spec (section 3): a piece supports independent bitwise
extraction of color and type, and KING and QUEEN double as castling-side
tags, which forces a one-hot bit encoding.  The concrete bit assignment
chosen here is PAWN=1, KNIGHT=2, BISHOP=4, ROOK=8, QUEEN=16, KING=32,
WHITE=64, BLACK=128, EMPTY=0, PIECE_TYPE=63, COLOR=192.

The process-wide table of pseudo-random hash values that game.c builds
lazily with rand() is modelled as an explicit HashTable parameter, passed
to every function that hashes positions; within one run of the program the
table is fixed, which the parameter captures.
-/

namespace DharmaChess

/-! ## Piece encoding (modelled from the spec, see header comment) -/

def EMPTY : Nat := 0
def PAWN : Nat := 1
def KNIGHT : Nat := 2
def BISHOP : Nat := 4
def ROOK : Nat := 8
def QUEEN : Nat := 16
def KING : Nat := 32
def WHITE : Nat := 64
def BLACK : Nat := 128
def PIECE_TYPE : Nat := 63
def COLOR : Nat := 192

/-- The 32-bit value of the C expression `~QUEEN`. -/
def NOT_QUEEN : Nat := 4294967279

/-- The 32-bit value of the C expression `~KING`. -/
def NOT_KING : Nat := 4294967263

/-- The 32-bit value of the C expression `~COLOR`. -/
def NOT_COLOR : Nat := 4294967103

/-! ## Data model: squares, results, the game struct -/

/-- struct square: a pair of C ints. -/
structure Square where
  file : Int
  rank : Int
deriving DecidableEq, Repr

/-- enum move_result, in the order of move_result_text. -/
inductive MoveResult where
  | DEFAULT
  | CHECK
  | CHECKMATE
  | DRAW
  | ILLEGAL
deriving DecidableEq, Repr

export MoveResult (DEFAULT CHECK CHECKMATE DRAW ILLEGAL)

/--
struct game (modelled from the spec where game.h is missing): an 8x8 board
indexed board[file][rank], the side to move, the two castling-availability
bit sets, the en passant file (-1 for none), the halfmove clock, and the
position history.  The C position history is an int array of 101 slots
indexed by the halfmove clock; it is modelled as a total function from Int
so that every read and write is defined (C reads or writes outside 0..100
would be out of bounds).
-/
structure Game where
  board : List (List Nat)
  side_to_move : Nat
  white_castling_avail : Nat
  black_castling_avail : Nat
  en_passant_file : Int
  halfmove_clock : Int
  position_history : Int → Nat

/-! ## Board access helpers -/

/-- Read board[file][rank]; all reads performed by game.c are in range. -/
def boardGet (b : List (List Nat)) (file rank : Int) : Nat :=
  (b.getD file.toNat []).getD rank.toNat EMPTY

/-- Write board[file][rank]; all writes performed by game.c are in range. -/
def boardSet (b : List (List Nat)) (file rank : Int) (v : Nat) : List (List Nat) :=
  b.set file.toNat ((b.getD file.toNat []).set rank.toNat v)

/-- An all-EMPTY 8x8 board, the memset of fen_to_game. -/
def emptyBoard : List (List Nat) := List.replicate 8 (List.replicate 8 EMPTY)

/-- The board really is an 8x8 C array. -/
def boardWF (b : List (List Nat)) : Bool :=
  b.length == 8 && b.all (fun row => row.length == 8)

/-- Write one slot of the position history. -/
def histSet (h : Int → Nat) (i : Int) (v : Nat) : Int → Nat :=
  fun j => if j = i then v else h j

/-- The C abs() on int. -/
def iabs (i : Int) : Int := if i < 0 then -i else i

/-- All 64 squares in the file-major order every loop of game.c scans. -/
def squares64 : List Square :=
  (List.range 8).flatMap (fun f => (List.range 8).map (fun r => ⟨(f : Int), (r : Int)⟩))

/-- piece_at() of game.c. -/
def piece_at (g : Game) (sq : Square) : Nat :=
  boardGet g.board sq.file sq.rank

/-! ## Hashing (hash() of game.c, Zobrist style)

The lazily built static tables are an explicit parameter; rand() values
are arbitrary nonnegative ints, modelled as arbitrary Nat. -/

structure HashTable where
  piece_hash : Nat → Nat → Nat → Nat
  en_passant_hash : Int → Nat
  castling_avail_hash : Nat → Nat
  white_to_move_hash : Nat

/-- hash() of game.c, lines 140-209, with the table passed explicitly. -/
def hash (tbl : HashTable) (g : Game) : Nat :=
  let pieceXor : Nat :=
    (List.range 8).foldl (fun acc (file : Nat) =>
      (List.range 8).foldl (fun acc (rank : Nat) =>
        let p := piece_at g ⟨(file : Int), (rank : Int)⟩
        if p = WHITE ||| PAWN then acc ^^^ tbl.piece_hash file rank 0
        else if p = WHITE ||| KNIGHT then acc ^^^ tbl.piece_hash file rank 1
        else if p = WHITE ||| BISHOP then acc ^^^ tbl.piece_hash file rank 2
        else if p = WHITE ||| ROOK then acc ^^^ tbl.piece_hash file rank 3
        else if p = WHITE ||| QUEEN then acc ^^^ tbl.piece_hash file rank 4
        else if p = WHITE ||| KING then acc ^^^ tbl.piece_hash file rank 5
        else if p = BLACK ||| PAWN then acc ^^^ tbl.piece_hash file rank 6
        else if p = BLACK ||| KNIGHT then acc ^^^ tbl.piece_hash file rank 7
        else if p = BLACK ||| BISHOP then acc ^^^ tbl.piece_hash file rank 8
        else if p = BLACK ||| ROOK then acc ^^^ tbl.piece_hash file rank 9
        else if p = BLACK ||| QUEEN then acc ^^^ tbl.piece_hash file rank 10
        else if p = BLACK ||| KING then acc ^^^ tbl.piece_hash file rank 11
        else acc) acc) 0
  -- the position is different if a pawn can no longer be taken en passant
  -- (note the C guards: file - 1 >= 1 and file + 1 <= 6, not >= 0 / <= 7)
  let epXor : Nat :=
    if g.en_passant_file ≥ 0 then
      let moving_pawn := g.side_to_move ||| PAWN
      let epRank : Int := if g.side_to_move = WHITE then 4 else 3
      let fLeft : Int := g.en_passant_file - 1
      if fLeft ≥ 1 ∧ piece_at g ⟨fLeft, epRank⟩ = moving_pawn then
        pieceXor ^^^ tbl.en_passant_hash g.en_passant_file
      else
        let fRight : Int := g.en_passant_file + 1
        if fRight ≤ 6 ∧ piece_at g ⟨fRight, epRank⟩ = moving_pawn then
          pieceXor ^^^ tbl.en_passant_hash g.en_passant_file
        else pieceXor
    else pieceXor
  -- castling availability is accounted even if the king cannot castle now
  let c0 := if QUEEN &&& g.white_castling_avail ≠ 0 then epXor ^^^ tbl.castling_avail_hash 0 else epXor
  let c1 := if KING &&& g.white_castling_avail ≠ 0 then c0 ^^^ tbl.castling_avail_hash 1 else c0
  let c2 := if QUEEN &&& g.black_castling_avail ≠ 0 then c1 ^^^ tbl.castling_avail_hash 2 else c1
  let c3 := if KING &&& g.black_castling_avail ≠ 0 then c2 ^^^ tbl.castling_avail_hash 3 else c2
  if g.side_to_move = WHITE then c3 ^^^ tbl.white_to_move_hash else c3

/-! ## Piece geometry (the has_way family of game.c) -/

/-- pawn_has_way() of game.c, lines 215-249. -/
def pawn_has_way (g : Game) (f t : Square) : Bool :=
  let direction : Int := if (piece_at g f) &&& COLOR = WHITE then 1 else -1
  let advance : Int := t.rank - f.rank
  if f.file = t.file then
    -- just move, no capture
    if piece_at g t ≠ EMPTY then false
    else if advance = direction ∧ piece_at g t = EMPTY then true
    else if advance = 2 * direction then
      let pawn_start_rank : Int := if g.side_to_move = WHITE then 1 else 6
      if f.rank ≠ pawn_start_rank then false
      else if boardGet g.board f.file (pawn_start_rank + direction) ≠ EMPTY then false
      else true
    else false
  else
    -- capture
    if iabs (f.file - t.file) ≠ 1 then false
    else if advance ≠ direction then false
    else if piece_at g t ≠ EMPTY then true
    else
      let en_passant_rank : Int := if g.side_to_move = WHITE then 5 else 2
      if t.file = g.en_passant_file ∧ t.rank = en_passant_rank then true
      else false

/-- knight_has_way() of game.c, lines 251-258. -/
def knight_has_way (f t : Square) : Bool :=
  let file_move := iabs (f.file - t.file)
  let rank_move := iabs (f.rank - t.rank)
  (file_move = 1 ∧ rank_move = 2) ∨ (file_move = 2 ∧ rank_move = 1)

/--
The straight-line walks of bishop_has_way, rook_has_way and the castling
path check: starting next to (file, rank) and stepping by (fd, rd), the
given number of squares are all EMPTY.
-/
def walkClear (b : List (List Nat)) (file rank fd rd : Int) : Nat → Bool
  | 0 => true
  | n + 1 =>
    let f := file + fd
    let r := rank + rd
    if boardGet b f r ≠ EMPTY then false else walkClear b f r fd rd n

/-- bishop_has_way() of game.c, lines 260-277. -/
def bishop_has_way (g : Game) (f t : Square) : Bool :=
  let file_move := iabs (f.file - t.file)
  let rank_move := iabs (f.rank - t.rank)
  if file_move ≠ rank_move then false
  else
    let file_direction : Int := if t.file > f.file then 1 else -1
    let rank_direction : Int := if t.rank > f.rank then 1 else -1
    walkClear g.board f.file f.rank file_direction rank_direction (file_move - 1).toNat

/-- rook_has_way() of game.c, lines 279-299. -/
def rook_has_way (g : Game) (f t : Square) : Bool :=
  if f.file ≠ t.file ∧ f.rank ≠ t.rank then false
  else
    let ok1 :=
      if f.file = t.file then
        let direction : Int := if t.rank > f.rank then 1 else -1
        walkClear g.board f.file f.rank 0 direction ((t.rank - f.rank) * direction - 1).toNat
      else true
    let ok2 :=
      if f.rank = t.rank then
        let direction : Int := if t.file > f.file then 1 else -1
        walkClear g.board f.file f.rank direction 0 ((t.file - f.file) * direction - 1).toNat
      else true
    ok1 && ok2

/-- queen_has_way() of game.c, lines 301-305. -/
def queen_has_way (g : Game) (f t : Square) : Bool :=
  bishop_has_way g f t || rook_has_way g f t

/-!
king_has_way calls is_attacked, which scans all pieces with piece_has_way,
which dispatches back to king_has_way: the C call graph is mutually
recursive through the castling branch, bounded only by the C call stack.
The Lean embedding makes that bound explicit with a fuel parameter that
every mutual call decrements; FUEL below is far larger than the recursion
depth any of the concrete positions in this file can reach.
-/

mutual

/-- piece_has_way() of game.c, lines 348-371. -/
def piece_has_way : Nat → Game → Square → Square → Bool
  | 0, _, _, _ => false
  | fuel + 1, g, f, t =>
    let pt := (piece_at g f) &&& PIECE_TYPE
    if pt = PAWN then pawn_has_way g f t
    else if pt = KNIGHT then knight_has_way f t
    else if pt = BISHOP then bishop_has_way g f t
    else if pt = ROOK then rook_has_way g f t
    else if pt = QUEEN then queen_has_way g f t
    else if pt = KING then king_has_way fuel g f t
    else false

/-- king_has_way() of game.c, lines 307-346. -/
def king_has_way : Nat → Game → Square → Square → Bool
  | 0, _, _, _ => false
  | fuel + 1, g, f, t =>
    let file_move := iabs (f.file - t.file)
    let rank_move := iabs (f.rank - t.rank)
    if file_move = 2 ∧ rank_move = 0 then
      -- castling: did the king and the rook stay unmoved?
      let castling_side : Nat := if t.file > f.file then KING else QUEEN
      let color := (piece_at g f) &&& COLOR
      let avail := if color = WHITE then g.white_castling_avail else g.black_castling_avail
      if castling_side &&& avail = 0 then false
      else
        let direction : Int := if castling_side = QUEEN then -1 else 1
        let rookFile : Int := if castling_side = QUEEN then 0 else 7
        let rook_to : Square := ⟨if castling_side = QUEEN then 3 else 5, f.rank⟩
        let opp_color := if color = WHITE then BLACK else WHITE
        -- free squares between the king and the rook
        if ¬ walkClear g.board f.file f.rank direction 0
            ((rookFile - (f.file + direction)) * direction).toNat then false
        -- cannot castle when the old or intermediate king position is checked
        else if is_attacked fuel g f || is_attacked_by fuel g rook_to opp_color then false
        else true
    else if file_move > 1 ∨ rank_move > 1 then false
    else true

/-- is_attacked_by() of game.c, lines 373-387. -/
def is_attacked_by : Nat → Game → Square → Nat → Bool
  | 0, _, _, _ => false
  | fuel + 1, g, sq, color =>
    squares64.any (fun f => (piece_at g f) &&& color ≠ 0 && piece_has_way fuel g f sq)

/-- is_attacked() of game.c, lines 389-394. -/
def is_attacked : Nat → Game → Square → Bool
  | 0, _, _ => false
  | fuel + 1, g, sq =>
    let opp_color := if (piece_at g sq) &&& COLOR = WHITE then BLACK else WHITE
    is_attacked_by fuel g sq opp_color

end

/-- Fuel bound standing in for the C call stack; see the comment above. -/
def FUEL : Nat := 100

/-- is_checked() of game.c, lines 396-407: find the first king of the color
in file-major scan order and test whether its square is attacked.  The C
asserts when no king exists; the model returns false there. -/
def is_checked (fuel : Nat) (g : Game) (color : Nat) : Bool :=
  match squares64.find? (fun sq => piece_at g sq == KING ||| color) with
  | some k => is_attacked fuel g k
  | none => false

/-! ## Move legality -/

/-- is_legal_move() of game.c, lines 413-477. -/
def is_legal_move (g : Game) (f t : Square) (promotion : Nat) : Bool :=
  if f.rank < 0 ∨ f.rank > 7 ∨ f.file < 0 ∨ f.file > 7 ∨
     t.rank < 0 ∨ t.rank > 7 ∨ t.file < 0 ∨ t.file > 7 then false
  else if piece_at g f = EMPTY then false
  else if (piece_at g f) &&& COLOR ≠ g.side_to_move then false
  else if (piece_at g t) &&& COLOR = g.side_to_move then false
  else if ¬ piece_has_way FUEL g f t then false
  else
    -- would the own king be checked after the simulated relocation?
    let new_position : Game :=
      { g with
        board := boardSet (boardSet g.board t.file t.rank (piece_at g f)) f.file f.rank EMPTY,
        side_to_move := if g.side_to_move = WHITE then BLACK else WHITE,
        en_passant_file := -1 }
    let check_safe : Bool := ¬ is_checked FUEL new_position g.side_to_move
    let last_rank : Int := if g.side_to_move = WHITE then 7 else 0
    if (piece_at g f) &&& PAWN ≠ 0 ∧ t.rank = last_rank then
      if promotion &&& PIECE_TYPE = KNIGHT ∨ promotion &&& PIECE_TYPE = BISHOP ∨
         promotion &&& PIECE_TYPE = ROOK ∨ promotion &&& PIECE_TYPE = QUEEN then check_safe
      else false
    else if promotion ≠ EMPTY then false
    else check_safe

/-- can_make_any_move() of game.c, lines 479-496. -/
def can_make_any_move (g : Game) : Bool :=
  squares64.any (fun f =>
    (piece_at g f) &&& g.side_to_move ≠ 0 &&
    squares64.any (fun t =>
      let promotion : Nat :=
        if (piece_at g f) &&& PAWN ≠ 0 ∧ (t.rank = 0 ∨ t.rank = 7) then QUEEN else EMPTY
      is_legal_move g f t promotion))

/-- enough_material() of game.c, lines 498-532.  The C early-returns true
on the first pawn, rook or queen; the fold carries that as a flag. -/
def enough_material (g : Game) : Bool :=
  let counts := squares64.foldl (fun (acc : Bool × Nat × Nat × Nat × Nat) sq =>
    let (major, w_knights, w_bishops, b_knights, b_bishops) := acc
    let p := piece_at g sq
    if p = WHITE ||| PAWN ∨ p = WHITE ||| ROOK ∨ p = WHITE ||| QUEEN ∨
       p = BLACK ||| ROOK ∨ p = BLACK ||| PAWN ∨ p = BLACK ||| QUEEN then
      (true, w_knights, w_bishops, b_knights, b_bishops)
    else if p = WHITE ||| KNIGHT then (major, w_knights + 1, w_bishops, b_knights, b_bishops)
    else if p = BLACK ||| KNIGHT then (major, w_knights, w_bishops, b_knights + 1, b_bishops)
    else if p = WHITE ||| BISHOP then (major, w_knights, w_bishops + 1, b_knights, b_bishops)
    else if p = BLACK ||| BISHOP then (major, w_knights, w_bishops, b_knights, b_bishops + 1)
    else acc) (false, 0, 0, 0, 0)
  let (major, w_knights, w_bishops, b_knights, b_bishops) := counts
  if major then true
  else if w_bishops ≥ 2 ∨ b_bishops ≥ 2 then true
  else if (w_bishops = 1 ∧ w_knights ≥ 1) ∨ (b_bishops = 1 ∧ b_knights ≥ 1) then true
  else false

/-! ## Move application (move() of game.c, lines 538-619)

The C mutates the game struct step by step and only then computes the
returned classification; the stages below mirror the mutation blocks in
source order, and move pairs the classification with the mutated game. -/

/-- Lines 544-546: record the baseline fingerprint of a fresh clock run. -/
def upd_baseline (tbl : HashTable) (g : Game) : Game :=
  if g.halfmove_clock = 0 then
    { g with position_history := histSet g.position_history 0 (hash tbl g) }
  else g

/-- Lines 548-560: disabling castling, keyed on the origin square. -/
def upd_rights (g : Game) (f : Square) : Game :=
  let g1 := if f.file = 0 ∧ f.rank = 0 then
    { g with white_castling_avail := g.white_castling_avail &&& NOT_QUEEN } else g
  let g2 := if f.file = 4 ∧ f.rank = 0 then
    { g1 with white_castling_avail := EMPTY } else g1
  let g3 := if f.file = 7 ∧ f.rank = 0 then
    { g2 with white_castling_avail := g2.white_castling_avail &&& NOT_KING } else g2
  let g4 := if f.file = 0 ∧ f.rank = 7 then
    { g3 with black_castling_avail := g3.black_castling_avail &&& NOT_QUEEN } else g3
  let g5 := if f.file = 4 ∧ f.rank = 7 then
    { g4 with black_castling_avail := EMPTY } else g4
  if f.file = 7 ∧ f.rank = 7 then
    { g5 with black_castling_avail := g5.black_castling_avail &&& NOT_KING } else g5

/-- Lines 562-570: moving the rook for castling. -/
def upd_castle_rook (g : Game) (f t : Square) : Game :=
  let g1 := if (piece_at g f) &&& KING ≠ 0 ∧ t.file - f.file = 2 then
    { g with board := boardSet (boardSet g.board 5 f.rank (boardGet g.board 7 f.rank)) 7 f.rank EMPTY }
  else g
  if (piece_at g1 f) &&& KING ≠ 0 ∧ t.file - f.file = -2 then
    { g1 with board := boardSet (boardSet g1.board 3 f.rank (boardGet g1.board 0 f.rank)) 0 f.rank EMPTY }
  else g1

/-- Lines 572-577: en passant availability. -/
def upd_en_passant (g : Game) (f t : Square) : Game :=
  let g1 : Game := { g with en_passant_file := -1 }
  if (piece_at g1 f) &&& PAWN ≠ 0 ∧ iabs (f.rank - t.rank) = 2 then
    { g1 with en_passant_file := f.file }
  else g1

/-- Lines 579-582: track the fifty-move rule. -/
def upd_clock (g : Game) (f t : Square) : Game :=
  let g1 : Game := { g with halfmove_clock := g.halfmove_clock + 1 }
  if (piece_at g1 f) &&& PAWN ≠ 0 ∨ piece_at g1 t ≠ EMPTY then
    { g1 with halfmove_clock := 0 }
  else g1

/-- Lines 584-595: move the piece, promote, flip the side to move.  The
en-passant removal block of lines 591-595 compares with == instead of
assigning, and its guard reads the from-square that the relocation has
already emptied, so it has no effect on the game; nothing models it. -/
def upd_piece (g : Game) (f t : Square) (promotion : Nat) : Game :=
  let g1 : Game := { g with board := boardSet g.board t.file t.rank (boardGet g.board f.file f.rank) }
  let g2 : Game := { g1 with board := boardSet g1.board f.file f.rank EMPTY }
  let g3 := if promotion ≠ EMPTY then
    { g2 with board := boardSet g2.board t.file t.rank ((promotion &&& NOT_COLOR) ||| g2.side_to_move) }
  else g2
  { g3 with side_to_move := if g3.side_to_move = WHITE then BLACK else WHITE }

/-- Line 597: append the new fingerprint at index halfmove_clock. -/
def upd_record (tbl : HashTable) (g : Game) : Game :=
  { g with position_history := histSet g.position_history g.halfmove_clock (hash tbl g) }

/-- All mutations of move() in source order. -/
def moveApply (tbl : HashTable) (g : Game) (f t : Square) (promotion : Nat) : Game :=
  upd_record tbl
    (upd_piece
      (upd_clock
        (upd_en_passant
          (upd_castle_rook
            (upd_rights (upd_baseline tbl g) f)
            f t)
          f t)
        f t)
      f t promotion)

/-- Lines 598-601: occurrences of the newest fingerprint in the history. -/
def repetition_count (g : Game) : Nat :=
  (List.range (g.halfmove_clock + 1).toNat).countP
    (fun m => g.position_history (m : Int) == g.position_history g.halfmove_clock)

/-- Lines 598-618: the classification move() returns for a legal move,
computed on the already-mutated game. -/
def moveClassify (tbl : HashTable) (g : Game) (f t : Square) (promotion : Nat) : MoveResult :=
  let g1 := moveApply tbl g f t promotion
  if repetition_count g1 = 3 then DRAW
  else if ¬ enough_material g1 then DRAW
  else if ¬ can_make_any_move g1 then
    if is_checked FUEL g1 g1.side_to_move then CHECKMATE else DRAW
  else if g1.halfmove_clock = 100 then DRAW
  else if is_checked FUEL g1 g1.side_to_move then CHECK
  else DEFAULT

/-- move() of game.c: reject illegal moves unchanged, otherwise pair the
classification with the mutated game. -/
def move (tbl : HashTable) (g : Game) (f t : Square) (promotion : Nat) : MoveResult × Game :=
  if is_legal_move g f t promotion then
    (moveClassify tbl g f t promotion, moveApply tbl g f t promotion)
  else (ILLEGAL, g)

/-! ## Move input parsing (parse_move() of game.c, lines 621-647) -/

/-- The truncation strcspn + move_str[length] = 0 performs: the buffer up
to the first carriage return or newline. -/
def stripNewlines (s : List Char) : List Char :=
  s.takeWhile (fun c => c ≠ '\r' && c ≠ '\n')

/-- C tolower in the default locale, on the ASCII range. -/
def tolowerChar (c : Char) : Char :=
  if 65 ≤ c.toNat ∧ c.toNat ≤ 90 then Char.ofNat (c.toNat + 32) else c

/-- parse_move() of game.c.  The C mutates the caller buffer; the model
returns the final buffer contents as the last component. -/
def parse_move (tbl : HashTable) (g : Game) (move_str : List Char) :
    MoveResult × Game × List Char :=
  -- strip newline characters
  let s1 := stripNewlines move_str
  let length := s1.length
  if length < 4 ∨ length > 5 then (ILLEGAL, g, s1)
  else
    let s2 := s1.map tolowerChar
    let cAt : Nat → Char := fun i => s2.getD i (Char.ofNat 0)
    let f : Square := ⟨((cAt 0).toNat : Int) - 97, ((cAt 1).toNat : Int) - 49⟩
    let t : Square := ⟨((cAt 2).toNat : Int) - 97, ((cAt 3).toNat : Int) - 49⟩
    let promotion : Nat :=
      if cAt 4 = 'n' then KNIGHT
      else if cAt 4 = 'b' then BISHOP
      else if cAt 4 = 'r' then ROOK
      else if cAt 4 = 'q' then QUEEN
      else EMPTY
    let (r, g1) := move tbl g f t promotion
    (r, g1, s2)

/-! ## Position deserialization (fen_to_game() of game.c, lines 44-129)

The C scans the string with an index that only moves forward; the model
consumes a List Char.  The struct starts memset to zero, which is why the
en passant file defaults to 0 (not -1) when the field is "-". -/

/-- The piece-letter cases of the placement switch. -/
def pieceOfChar (c : Char) : Option Nat :=
  if c = 'P' then some (WHITE ||| PAWN)
  else if c = 'N' then some (WHITE ||| KNIGHT)
  else if c = 'B' then some (WHITE ||| BISHOP)
  else if c = 'R' then some (WHITE ||| ROOK)
  else if c = 'Q' then some (WHITE ||| QUEEN)
  else if c = 'K' then some (WHITE ||| KING)
  else if c = 'p' then some (BLACK ||| PAWN)
  else if c = 'n' then some (BLACK ||| KNIGHT)
  else if c = 'b' then some (BLACK ||| BISHOP)
  else if c = 'r' then some (BLACK ||| ROOK)
  else if c = 'q' then some (BLACK ||| QUEEN)
  else if c = 'k' then some (BLACK ||| KING)
  else none

/-- Lines 51-83: the placement loop.  Running out of characters means the
C read the terminating 0 byte, which hits the default switch case. -/
def parsePlacement : List Char → Int → Int → List (List Nat) →
    Option (List (List Nat) × List Char)
  | [], _, _, _ => none
  | c :: rest, file, rank, b =>
    if c = ' ' then some (b, rest)
    else if c = '/' then parsePlacement rest 0 (rank - 1) b
    else if file > 7 ∨ rank < 0 then none
    else if '1' ≤ c ∧ c ≤ '8' then
      parsePlacement rest (file + ((c.toNat : Int) - 48)) rank b
    else
      match pieceOfChar c with
      | some p => parsePlacement rest (file + 1) rank (boardSet b file rank p)
      | none => none

/-- Lines 85-89: the side-to-move switch. -/
def parseSide : List Char → Option (Nat × List Char)
  | [] => none
  | c :: rest =>
    if c = 'w' then some (WHITE, rest)
    else if c = 'b' then some (BLACK, rest)
    else none

/-- Lines 94-103: the castling-availability loop. -/
def parseCastling : List Char → Nat → Nat → Option (Nat × Nat × List Char)
  | [], _, _ => none
  | c :: rest, w, b =>
    if c = ' ' then some (w, b, rest)
    else if c = '-' then parseCastling rest w b
    else if c = 'K' then parseCastling rest (w ||| KING) b
    else if c = 'Q' then parseCastling rest (w ||| QUEEN) b
    else if c = 'k' then parseCastling rest w (b ||| KING)
    else if c = 'q' then parseCastling rest w (b ||| QUEEN)
    else none

/-- Lines 105-116: the en passant field.  After it the C does i += 2,
skipping one character beyond the field without checking it, which the
extra drop 1 reproduces.  A "-" leaves the memset default of file 0. -/
def parseEP : List Char → Option (Int × List Char)
  | [] => none
  | c :: rest =>
    if 'a' ≤ c ∧ c ≤ 'h' then
      let ep : Int := (c.toNat : Int) - 97
      if ep < 0 ∨ ep > 7 then none  -- dead check kept from the source
      else
        match rest with
        | [] => none
        | d :: rest2 =>
          if d < '1' ∨ d > '8' then none
          else some (ep, rest2.drop 1)
    else if c = '-' then some (0, rest.drop 1)
    else none

/-- The %d conversion of sscanf: skip whitespace, optional sign, digits. -/
def sscanfInt (s : List Char) : Option Int :=
  let isCSpace : Char → Bool := fun c =>
    c = ' ' || c = '\t' || c = '\n' || c = Char.ofNat 11 || c = Char.ofNat 12 || c = '\r'
  let digitsVal : List Char → Option Nat := fun l =>
    let ds := l.takeWhile (fun c => '0' ≤ c ∧ c ≤ '9')
    if ds.isEmpty then none
    else some (ds.foldl (fun a c => a * 10 + (c.toNat - 48)) 0)
  match s.dropWhile isCSpace with
  | '-' :: r => (digitsVal r).map (fun n => -(n : Int))
  | '+' :: r => (digitsVal r).map (fun n => (n : Int))
  | r => (digitsVal r).map (fun n => (n : Int))

/-- fen_to_game() of game.c. -/
def fen_to_game (fen : List Char) : Option Game :=
  match parsePlacement fen 0 7 emptyBoard with
  | none => none
  | some (b, r1) =>
    match parseSide r1 with
    | none => none
    | some (stm, r2) =>
      match r2 with
      | [] => none
      | c :: r3 =>
        if c ≠ ' ' then none
        else
          match parseCastling r3 0 0 with
          | none => none
          | some (w, bl, r4) =>
            match parseEP r4 with
            | none => none
            | some (ep, r5) =>
              match sscanfInt r5 with
              | none => none
              | some hc =>
                if hc < 0 ∨ hc > 100 then none
                else some
                  { board := b
                    side_to_move := stm
                    white_castling_avail := w
                    black_castling_avail := bl
                    en_passant_file := ep
                    halfmove_clock := hc
                    position_history := fun _ => 0 }

/-! ## Sequences of moves (used to state the fifty-move-rule claim) -/

/-- Thread a list of (from, to, promotion) requests through move(),
keeping the final game. -/
def playAll (tbl : HashTable) (g : Game) (ms : List (Square × Square × Nat)) : Game :=
  ms.foldl (fun g m => (move tbl g m.1 m.2.1 m.2.2).2) g

/-- The result move() returns for the last request of a nonempty list. -/
def runMoves (tbl : HashTable) : Game → List (Square × Square × Nat) → MoveResult
  | _, [] => DEFAULT
  | g, [m] => (move tbl g m.1 m.2.1 m.2.2).1
  | g, m :: ms => runMoves tbl (move tbl g m.1 m.2.1 m.2.2).2 ms

/-- A two-file king move starting away from file 4 makes the rook-moving
block of move() overwrite squares the fifty-move bookkeeping then reads;
restricting castling-shaped moves to the standard king origin keeps the
quiet-move window honest. -/
def castlingGuardB (g : Game) (f t : Square) : Bool :=
  if (piece_at g f) &&& KING ≠ 0 ∧ (t.file - f.file = 2 ∨ t.file - f.file = -2) then
    f.file == 4
  else true

/-- Every request of the list is legal when its turn comes, moves no pawn,
lands on an empty square, and respects the castling-origin guard. -/
def quietRun (tbl : HashTable) : Game → List (Square × Square × Nat) → Bool
  | _, [] => true
  | g, m :: ms =>
    (is_legal_move g m.1 m.2.1 m.2.2 &&
     ((piece_at g m.1) &&& PAWN == 0) &&
     (piece_at g m.2.1 == EMPTY) &&
     castlingGuardB g m.1 m.2.1) &&
    quietRun tbl (move tbl g m.1 m.2.1 m.2.2).2 ms

/-! ## Concrete tables, positions and move lists used by the theorems -/

/-- A possible value of the lazily built random tables (rand() may return
any nonnegative int, including zero). -/
def tbl0 : HashTable := ⟨fun _ _ _ => 0, fun _ => 0, fun _ => 0, 0⟩

/-- A table that isolates the en passant value of file 1. -/
def tbl4 : HashTable := ⟨fun _ _ _ => 0, fun f => if f = 1 then 1 else 0, fun _ => 0, 0⟩

/-- Build a game from a piece list (file, rank, piece), with empty castling
availability and all-zero position history. -/
def mkGame (pieces : List (Int × Int × Nat)) (stm : Nat) (ep : Int) (clock : Int) : Game :=
  { board := pieces.foldl (fun b p => boardSet b p.1 p.2.1 p.2.2) emptyBoard
    side_to_move := stm
    white_castling_avail := 0
    black_castling_avail := 0
    en_passant_file := ep
    halfmove_clock := clock
    position_history := fun _ => 0 }

/-- White pawn e5, black pawn d5 that just advanced two squares
(en_passant_file 3), kings on e1 and e8, White to move. -/
def g1c : Game :=
  mkGame [(4,4,WHITE|||PAWN),(3,4,BLACK|||PAWN),(4,0,WHITE|||KING),(4,7,BLACK|||KING)] WHITE 3 0

/-- A back-rank mate in one (Kb6, Rh2 versus Ka8) with halfmove clock 1 and
an all-zero recorded history. -/
def g3c : Game :=
  mkGame [(1,5,WHITE|||KING),(7,1,WHITE|||ROOK),(0,7,BLACK|||KING)] WHITE (-1) 1

/-- The same mate in one with a fresh clock run (halfmove clock 0). -/
def g3w : Game :=
  mkGame [(1,5,WHITE|||KING),(7,1,WHITE|||ROOK),(0,7,BLACK|||KING)] WHITE (-1) 0

/-- White to move with en_passant_file 1 and a white pawn on a5 (file 0,
rank 4), the configuration whose en passant availability the hash drops. -/
def g4c : Game :=
  mkGame [(0,4,WHITE|||PAWN),(1,4,BLACK|||PAWN),(4,0,WHITE|||KING),(4,7,BLACK|||KING)] WHITE 1 0

/-- The contrast position: the capturing pawn on file 2 instead of file 0. -/
def g4c2 : Game :=
  mkGame [(2,4,WHITE|||PAWN),(1,4,BLACK|||PAWN),(4,0,WHITE|||KING),(4,7,BLACK|||KING)] WHITE 1 0

/-- The underfull FEN: the first rank lists only seven files. -/
def fen5 : List Char := "k7/8/8/8/8/8/8/K6 w - - 0".data

/-- A white pawn on a7 about to promote. -/
def g7c : Game :=
  mkGame [(0,6,WHITE|||PAWN),(4,0,WHITE|||KING),(4,7,BLACK|||KING)] WHITE (-1) 0

/-- A quiet position whose halfmove clock already stands at 100. -/
def g9c : Game :=
  mkGame [(1,5,WHITE|||KING),(7,1,WHITE|||ROOK),(4,7,BLACK|||KING)] WHITE (-1) 100

/-- A small position for exercising illegal requests and parse_move. -/
def gW : Game := mkGame [(4,0,WHITE|||KING),(4,7,BLACK|||KING)] WHITE (-1) 0

/-- Kb6 and Rh1 versus Ka8, Black to move, fresh clock run. -/
def g6c : Game :=
  mkGame [(1,5,WHITE|||KING),(7,0,WHITE|||ROOK),(0,7,BLACK|||KING)] BLACK (-1) 0

/-- Four quiet moves that return g6c to itself: Ka8-b8, Rh1-h2, Kb8-a8,
Rh2-h1. -/
def quad : List (Square × Square × Nat) :=
  [(⟨0,7⟩, ⟨1,7⟩, EMPTY), (⟨7,0⟩, ⟨7,1⟩, EMPTY), (⟨1,7⟩, ⟨0,7⟩, EMPTY), (⟨7,1⟩, ⟨7,0⟩, EMPTY)]

/-- One hundred quiet moves from g6c whose last one is the mate Rh2-h8. -/
def ms6 : List (Square × Square × Nat) :=
  (List.replicate 24 quad).flatten ++
  [(⟨0,7⟩, ⟨1,7⟩, EMPTY), (⟨7,0⟩, ⟨7,1⟩, EMPTY), (⟨1,7⟩, ⟨0,7⟩, EMPTY), (⟨7,1⟩, ⟨7,7⟩, EMPTY)]

/-- One hundred quiet moves from g6c whose last one is the harmless
Rh2-h3. -/
def ms6w : List (Square × Square × Nat) :=
  (List.replicate 24 quad).flatten ++
  [(⟨0,7⟩, ⟨1,7⟩, EMPTY), (⟨7,0⟩, ⟨7,1⟩, EMPTY), (⟨1,7⟩, ⟨0,7⟩, EMPTY), (⟨7,1⟩, ⟨7,2⟩, EMPTY)]

/-! ## Helper lemmas: board reads and writes -/

theorem boardGet_boardSet_ne_file (b : List (List Nat)) (f1 r1 : Int) (v : Nat)
    (f2 r2 : Int) (h : f1.toNat ≠ f2.toNat) :
    boardGet (boardSet b f1 r1 v) f2 r2 = boardGet b f2 r2 := by
  simp [boardGet, boardSet, List.getD_eq_getElem?_getD, List.getElem?_set_ne h]

theorem boardGet_boardSet_self (b : List (List Nat)) (f r : Int) (v : Nat)
    (hf : f.toNat < b.length) (hr : r.toNat < (b.getD f.toNat []).length) :
    boardGet (boardSet b f r v) f r = v := by
  simp [boardGet, boardSet, List.getD_eq_getElem?_getD, List.getElem?_set_self hf,
    List.getElem?_set_self (by simpa [List.getD_eq_getElem?_getD] using hr)]

theorem boardWF_length {b : List (List Nat)} (h : boardWF b = true) : b.length = 8 := by
  simp [boardWF] at h
  exact h.1

theorem boardWF_row_length {b : List (List Nat)} (h : boardWF b = true)
    (i : Nat) (hi : i < 8) : (b.getD i []).length = 8 := by
  simp [boardWF] at h
  obtain ⟨hlen, hall⟩ := h
  have hi' : i < b.length := by omega
  have hmem : b[i] ∈ b := List.getElem_mem hi'
  have : (b.getD i []) = b[i] := by
    simp [List.getD_eq_getElem?_getD, List.getElem?_eq_getElem hi']
  rw [this]
  exact hall _ hmem

theorem boardWF_boardSet {b : List (List Nat)} (h : boardWF b = true)
    (f r : Int) (v : Nat) : boardWF (boardSet b f r v) = true := by
  by_cases hf : f.toNat < b.length
  · simp [boardWF] at h ⊢
    obtain ⟨hlen, hall⟩ := h
    refine ⟨by simp [boardSet, hlen], ?_⟩
    intro row hrow
    rcases List.mem_or_eq_of_mem_set hrow with hmem | heq
    · exact hall _ hmem
    · subst heq
      have : (b.getD f.toNat []) = b[f.toNat] := by
        simp [List.getD_eq_getElem?_getD, List.getElem?_eq_getElem hf]
      rw [this, List.length_set]
      exact hall _ (List.getElem_mem hf)
  · unfold boardSet
    rw [List.set_eq_of_length_le (Nat.le_of_not_lt hf)]
    exact h

/-! ## Helper lemmas: which fields each mutation stage leaves alone -/

theorem upd_baseline_board (tbl : HashTable) (g : Game) :
    (upd_baseline tbl g).board = g.board := by
  simp only [upd_baseline]
  repeat' split
  all_goals rfl

theorem upd_baseline_side (tbl : HashTable) (g : Game) :
    (upd_baseline tbl g).side_to_move = g.side_to_move := by
  simp only [upd_baseline]
  repeat' split
  all_goals rfl

theorem upd_baseline_clock (tbl : HashTable) (g : Game) :
    (upd_baseline tbl g).halfmove_clock = g.halfmove_clock := by
  simp only [upd_baseline]
  repeat' split
  all_goals rfl

theorem upd_baseline_white (tbl : HashTable) (g : Game) :
    (upd_baseline tbl g).white_castling_avail = g.white_castling_avail := by
  simp only [upd_baseline]
  repeat' split
  all_goals rfl

theorem upd_baseline_black (tbl : HashTable) (g : Game) :
    (upd_baseline tbl g).black_castling_avail = g.black_castling_avail := by
  simp only [upd_baseline]
  repeat' split
  all_goals rfl

theorem upd_rights_board (g : Game) (f : Square) :
    (upd_rights g f).board = g.board := by
  simp only [upd_rights]
  repeat' split
  all_goals rfl

theorem upd_rights_side (g : Game) (f : Square) :
    (upd_rights g f).side_to_move = g.side_to_move := by
  simp only [upd_rights]
  repeat' split
  all_goals rfl

theorem upd_rights_clock (g : Game) (f : Square) :
    (upd_rights g f).halfmove_clock = g.halfmove_clock := by
  simp only [upd_rights]
  repeat' split
  all_goals rfl

theorem upd_castle_rook_side (g : Game) (f t : Square) :
    (upd_castle_rook g f t).side_to_move = g.side_to_move := by
  simp only [upd_castle_rook]
  repeat' split
  all_goals rfl

theorem upd_castle_rook_clock (g : Game) (f t : Square) :
    (upd_castle_rook g f t).halfmove_clock = g.halfmove_clock := by
  simp only [upd_castle_rook]
  repeat' split
  all_goals rfl

theorem upd_castle_rook_white (g : Game) (f t : Square) :
    (upd_castle_rook g f t).white_castling_avail = g.white_castling_avail := by
  simp only [upd_castle_rook]
  repeat' split
  all_goals rfl

theorem upd_castle_rook_black (g : Game) (f t : Square) :
    (upd_castle_rook g f t).black_castling_avail = g.black_castling_avail := by
  simp only [upd_castle_rook]
  repeat' split
  all_goals rfl

theorem upd_en_passant_board (g : Game) (f t : Square) :
    (upd_en_passant g f t).board = g.board := by
  simp only [upd_en_passant]
  repeat' split
  all_goals rfl

theorem upd_en_passant_side (g : Game) (f t : Square) :
    (upd_en_passant g f t).side_to_move = g.side_to_move := by
  simp only [upd_en_passant]
  repeat' split
  all_goals rfl

theorem upd_en_passant_clock (g : Game) (f t : Square) :
    (upd_en_passant g f t).halfmove_clock = g.halfmove_clock := by
  simp only [upd_en_passant]
  repeat' split
  all_goals rfl

theorem upd_en_passant_white (g : Game) (f t : Square) :
    (upd_en_passant g f t).white_castling_avail = g.white_castling_avail := by
  simp only [upd_en_passant]
  repeat' split
  all_goals rfl

theorem upd_en_passant_black (g : Game) (f t : Square) :
    (upd_en_passant g f t).black_castling_avail = g.black_castling_avail := by
  simp only [upd_en_passant]
  repeat' split
  all_goals rfl

theorem upd_clock_board (g : Game) (f t : Square) :
    (upd_clock g f t).board = g.board := by
  simp only [upd_clock]
  repeat' split
  all_goals rfl

theorem upd_clock_side (g : Game) (f t : Square) :
    (upd_clock g f t).side_to_move = g.side_to_move := by
  simp only [upd_clock]
  repeat' split
  all_goals rfl

theorem upd_clock_white (g : Game) (f t : Square) :
    (upd_clock g f t).white_castling_avail = g.white_castling_avail := by
  simp only [upd_clock]
  repeat' split
  all_goals rfl

theorem upd_clock_black (g : Game) (f t : Square) :
    (upd_clock g f t).black_castling_avail = g.black_castling_avail := by
  simp only [upd_clock]
  repeat' split
  all_goals rfl

/-- The clock after the fifty-move bookkeeping: reset to zero exactly when
the C condition on the post-rook-move board holds. -/
theorem upd_clock_spec (g : Game) (f t : Square) :
    (upd_clock g f t).halfmove_clock =
      (if (piece_at g f) &&& PAWN ≠ 0 ∨ piece_at g t ≠ EMPTY then 0
       else g.halfmove_clock + 1) := by
  unfold upd_clock
  split <;> simp_all [piece_at]

theorem upd_piece_clock (g : Game) (f t : Square) (p : Nat) :
    (upd_piece g f t p).halfmove_clock = g.halfmove_clock := by
  simp only [upd_piece]
  repeat' split
  all_goals rfl

theorem upd_piece_white (g : Game) (f t : Square) (p : Nat) :
    (upd_piece g f t p).white_castling_avail = g.white_castling_avail := by
  simp only [upd_piece]
  repeat' split
  all_goals rfl

theorem upd_piece_black (g : Game) (f t : Square) (p : Nat) :
    (upd_piece g f t p).black_castling_avail = g.black_castling_avail := by
  simp only [upd_piece]
  repeat' split
  all_goals rfl

theorem upd_record_board (tbl : HashTable) (g : Game) :
    (upd_record tbl g).board = g.board := rfl

theorem upd_record_side (tbl : HashTable) (g : Game) :
    (upd_record tbl g).side_to_move = g.side_to_move := rfl

theorem upd_record_clock (tbl : HashTable) (g : Game) :
    (upd_record tbl g).halfmove_clock = g.halfmove_clock := rfl

theorem upd_record_white (tbl : HashTable) (g : Game) :
    (upd_record tbl g).white_castling_avail = g.white_castling_avail := rfl

theorem upd_record_black (tbl : HashTable) (g : Game) :
    (upd_record tbl g).black_castling_avail = g.black_castling_avail := rfl

/-! ## Helper lemmas: castling availability only ever shrinks -/

/-- Being a bitwise submask, expressed as absorption. -/
theorem submask_land {a b : Nat} (h : b &&& a = b) (m : Nat) :
    (b &&& m) &&& a = b &&& m := by
  calc (b &&& m) &&& a = b &&& (m &&& a) := Nat.land_assoc ..
    _ = b &&& (a &&& m) := by rw [Nat.land_comm m a]
    _ = (b &&& a) &&& m := (Nat.land_assoc ..).symm
    _ = b &&& m := by rw [h]

theorem upd_rights_white_submask (g : Game) (f : Square) :
    (upd_rights g f).white_castling_avail &&& g.white_castling_avail =
      (upd_rights g f).white_castling_avail := by
  simp only [upd_rights]
  repeat' split
  all_goals simp [EMPTY, Nat.and_self, Nat.zero_and, submask_land, submask_land (Nat.and_self _)]

theorem upd_rights_black_submask (g : Game) (f : Square) :
    (upd_rights g f).black_castling_avail &&& g.black_castling_avail =
      (upd_rights g f).black_castling_avail := by
  simp only [upd_rights]
  repeat' split
  all_goals simp [EMPTY, Nat.and_self, Nat.zero_and, submask_land, submask_land (Nat.and_self _)]

/-! ## Helper lemmas: the halfmove clock across move application -/

theorem piece_at_board_eq {g1 g2 : Game} (h : g1.board = g2.board) (sq : Square) :
    piece_at g1 sq = piece_at g2 sq := by
  simp [piece_at, h]

theorem moveApply_clock (tbl : HashTable) (g : Game) (f t : Square) (p : Nat) :
    (moveApply tbl g f t p).halfmove_clock =
      (if (piece_at (upd_castle_rook (upd_rights (upd_baseline tbl g) f) f t) f) &&& PAWN ≠ 0 ∨
          piece_at (upd_castle_rook (upd_rights (upd_baseline tbl g) f) f t) t ≠ EMPTY then 0
       else g.halfmove_clock + 1) := by
  have hb := upd_en_passant_board (upd_castle_rook (upd_rights (upd_baseline tbl g) f) f t) f t
  simp only [moveApply, upd_record_clock, upd_piece_clock, upd_clock_spec,
    piece_at_board_eq hb, upd_en_passant_clock, upd_castle_rook_clock, upd_rights_clock,
    upd_baseline_clock]

theorem moveApply_clock_cases (tbl : HashTable) (g : Game) (f t : Square) (p : Nat) :
    (moveApply tbl g f t p).halfmove_clock = 0 ∨
    (moveApply tbl g f t p).halfmove_clock = g.halfmove_clock + 1 := by
  rw [moveApply_clock]
  split
  · exact Or.inl rfl
  · exact Or.inr rfl

/-- With the castling-origin guard, the rook-moving block of move() never
touches the origin or destination squares the fifty-move bookkeeping
reads. -/
theorem upd_castle_rook_piece_quiet (g : Game) (f t : Square)
    (hguard : castlingGuardB g f t = true) :
    piece_at (upd_castle_rook g f t) f = piece_at g f ∧
    piece_at (upd_castle_rook g f t) t = piece_at g t := by
  by_cases hc1 : (piece_at g f) &&& KING ≠ 0 ∧ t.file - f.file = 2
  · have hcond : (piece_at g f) &&& KING ≠ 0 ∧ (t.file - f.file = 2 ∨ t.file - f.file = -2) :=
      ⟨hc1.1, Or.inl hc1.2⟩
    have hf4 : f.file = 4 := by
      simp only [castlingGuardB, if_pos hcond] at hguard
      exact by simpa using hguard
    have ht6 : t.file = 6 := by omega
    have hd2 : t.file - f.file = 2 := hc1.2
    have hne2 : ¬ (piece_at { g with board := boardSet (boardSet g.board 5 f.rank (boardGet g.board 7 f.rank)) 7 f.rank EMPTY } f &&& KING ≠ 0 ∧ t.file - f.file = -2) := fun hcontra => absurd hcontra.2 (by omega)
    simp only [upd_castle_rook, if_pos hc1, if_neg hne2]
    have hg1 : ∀ sq : Square, sq.file = 4 ∨ sq.file = 6 →
        boardGet (boardSet (boardSet g.board 5 f.rank (boardGet g.board 7 f.rank))
          7 f.rank EMPTY) sq.file sq.rank = boardGet g.board sq.file sq.rank := by
      intro sq hsq
      have hne7 : (7 : Int).toNat ≠ sq.file.toNat := by
        rcases hsq with h | h <;> rw [h] <;> decide
      have hne5 : (5 : Int).toNat ≠ sq.file.toNat := by
        rcases hsq with h | h <;> rw [h] <;> decide
      rw [boardGet_boardSet_ne_file _ _ _ _ _ _ hne7, boardGet_boardSet_ne_file _ _ _ _ _ _ hne5]
    exact ⟨hg1 f (Or.inl hf4), hg1 t (Or.inr ht6)⟩
  · by_cases hc2 : (piece_at g f) &&& KING ≠ 0 ∧ t.file - f.file = -2
    · have hcond : (piece_at g f) &&& KING ≠ 0 ∧ (t.file - f.file = 2 ∨ t.file - f.file = -2) :=
        ⟨hc2.1, Or.inr hc2.2⟩
      have hf4 : f.file = 4 := by
        simp only [castlingGuardB, if_pos hcond] at hguard
        exact by simpa using hguard
      have ht2 : t.file = 2 := by omega
      simp only [upd_castle_rook, if_neg hc1, if_pos hc2]
      have hg1 : ∀ sq : Square, sq.file = 4 ∨ sq.file = 2 →
          boardGet (boardSet (boardSet g.board 3 f.rank (boardGet g.board 0 f.rank))
            0 f.rank EMPTY) sq.file sq.rank = boardGet g.board sq.file sq.rank := by
        intro sq hsq
        have hne0 : (0 : Int).toNat ≠ sq.file.toNat := by
          rcases hsq with h | h <;> rw [h] <;> decide
        have hne3 : (3 : Int).toNat ≠ sq.file.toNat := by
          rcases hsq with h | h <;> rw [h] <;> decide
        rw [boardGet_boardSet_ne_file _ _ _ _ _ _ hne0, boardGet_boardSet_ne_file _ _ _ _ _ _ hne3]
      exact ⟨hg1 f (Or.inl hf4), hg1 t (Or.inr ht2)⟩
    · simp [upd_castle_rook, if_neg hc1, if_neg hc2]

/-- A legal quiet move (no pawn, empty destination, guarded castling
origin) always advances the halfmove clock by one. -/
theorem moveApply_clock_quiet (tbl : HashTable) (g : Game) (f t : Square) (p : Nat)
    (hpawn : (piece_at g f) &&& PAWN = 0)
    (hdest : piece_at g t = EMPTY)
    (hguard : castlingGuardB g f t = true) :
    (moveApply tbl g f t p).halfmove_clock = g.halfmove_clock + 1 := by
  rw [moveApply_clock]
  set gR := upd_rights (upd_baseline tbl g) f with hgR
  have hboard : gR.board = g.board := by
    rw [hgR, upd_rights_board, upd_baseline_board]
  have hpR : ∀ sq : Square, piece_at gR sq = piece_at g sq := piece_at_board_eq hboard
  have hguardR : castlingGuardB gR f t = true := by
    simpa [castlingGuardB, hpR] using hguard
  obtain ⟨hqf, hqt⟩ := upd_castle_rook_piece_quiet gR f t hguardR
  rw [if_neg]
  push_neg
  constructor
  · rw [hqf, hpR, hpawn]
  · rw [hqt, hpR, hdest]

/-! ## Helper lemmas: unfolding move() by legality -/

theorem move_legal (tbl : HashTable) (g : Game) (f t : Square) (p : Nat)
    (h : is_legal_move g f t p = true) :
    move tbl g f t p = (moveClassify tbl g f t p, moveApply tbl g f t p) := by
  simp [move, h]

theorem move_illegal (tbl : HashTable) (g : Game) (f t : Square) (p : Nat)
    (h : is_legal_move g f t p = false) :
    move tbl g f t p = (ILLEGAL, g) := by
  simp [move, h]

/-- A legal move keeps its squares on the board. -/
theorem is_legal_range {g : Game} {f t : Square} {p : Nat}
    (hleg : is_legal_move g f t p = true) :
    0 ≤ f.file ∧ f.file ≤ 7 ∧ 0 ≤ f.rank ∧ f.rank ≤ 7 ∧
    0 ≤ t.file ∧ t.file ≤ 7 ∧ 0 ≤ t.rank ∧ t.rank ≤ 7 := by
  by_contra hcon
  have hC : f.rank < 0 ∨ f.rank > 7 ∨ f.file < 0 ∨ f.file > 7 ∨
      t.rank < 0 ∨ t.rank > 7 ∨ t.file < 0 ∨ t.file > 7 := by omega
  simp only [is_legal_move] at hleg
  rw [if_pos hC] at hleg
  exact absurd hleg (by simp)

/-- Inversion of the promotion consistency branch of is_legal_move: a pawn
arriving on the last rank passed the promotion-type switch. -/
theorem is_legal_promotion_type {g : Game} {f t : Square} {p : Nat}
    (hleg : is_legal_move g f t p = true)
    (hpawn : (piece_at g f) &&& PAWN ≠ 0)
    (hlast : t.rank = (if g.side_to_move = WHITE then (7 : Int) else 0)) :
    p &&& PIECE_TYPE = KNIGHT ∨ p &&& PIECE_TYPE = BISHOP ∨
    p &&& PIECE_TYPE = ROOK ∨ p &&& PIECE_TYPE = QUEEN := by
  simp only [is_legal_move] at hleg
  split_ifs at hleg
  all_goals try simp at hleg
  all_goals try assumption
  all_goals simp_all

/-- Inversion of the promotion consistency branch of is_legal_move: a move
that is not a pawn advance to the last rank carries no promotion. -/
theorem is_legal_promotion_empty {g : Game} {f t : Square} {p : Nat}
    (hleg : is_legal_move g f t p = true)
    (hnot : ¬ ((piece_at g f) &&& PAWN ≠ 0 ∧
               t.rank = (if g.side_to_move = WHITE then (7 : Int) else 0))) :
    p = EMPTY := by
  simp only [is_legal_move] at hleg
  split_ifs at hleg
  all_goals try simp at hleg
  all_goals simp_all

theorem boardSet_length (b : List (List Nat)) (f r : Int) (v : Nat) :
    (boardSet b f r v).length = b.length := by
  simp [boardSet]

/-- A legal promotion move writes the promoted piece, colored for the
moving side, onto the destination square as the last board update. -/
theorem moveApply_promoted (tbl : HashTable) (g : Game) (f t : Square) (p : Nat)
    (hleg : is_legal_move g f t p = true) (hp : p ≠ EMPTY)
    (hwf : boardWF g.board = true) :
    piece_at (moveApply tbl g f t p) t = (p &&& NOT_COLOR) ||| g.side_to_move := by
  obtain ⟨h1, h2, h3, h4, h5, h6, h7, h8⟩ := is_legal_range hleg
  have hbR : (upd_rights (upd_baseline tbl g) f).board = g.board := by
    rw [upd_rights_board, upd_baseline_board]
  have hwfC : boardWF (upd_castle_rook (upd_rights (upd_baseline tbl g) f) f t).board = true := by
    simp only [upd_castle_rook]
    repeat' split
    all_goals repeat'
      first
        | (rw [hbR]; exact hwf)
        | apply boardWF_boardSet
  have hbMid : (upd_clock (upd_en_passant (upd_castle_rook
      (upd_rights (upd_baseline tbl g) f) f t) f t) f t).board =
      (upd_castle_rook (upd_rights (upd_baseline tbl g) f) f t).board := by
    rw [upd_clock_board, upd_en_passant_board]
  have hsMid : (upd_clock (upd_en_passant (upd_castle_rook
      (upd_rights (upd_baseline tbl g) f) f t) f t) f t).side_to_move = g.side_to_move := by
    rw [upd_clock_side, upd_en_passant_side, upd_castle_rook_side, upd_rights_side,
      upd_baseline_side]
  set gMid := upd_clock (upd_en_passant (upd_castle_rook
      (upd_rights (upd_baseline tbl g) f) f t) f t) f t with hgMid
  have hwfMid : boardWF gMid.board = true := by rw [hbMid]; exact hwfC
  have hwf2 : boardWF (boardSet (boardSet gMid.board t.file t.rank
      (boardGet gMid.board f.file f.rank)) f.file f.rank EMPTY) = true :=
    boardWF_boardSet (boardWF_boardSet hwfMid _ _ _) _ _ _
  have hlen2 : (boardSet (boardSet gMid.board t.file t.rank
      (boardGet gMid.board f.file f.rank)) f.file f.rank EMPTY).length = 8 := by
    rw [boardSet_length, boardSet_length]
    exact boardWF_length hwfMid
  have htf : t.file.toNat < 8 := by omega
  have hfin := boardGet_boardSet_self
      (boardSet (boardSet gMid.board t.file t.rank (boardGet gMid.board f.file f.rank))
        f.file f.rank EMPTY)
      t.file t.rank ((p &&& NOT_COLOR) ||| gMid.side_to_move)
      (by rw [hlen2]; omega)
      (by rw [boardWF_row_length hwf2 t.file.toNat htf]; omega)
  simp only [moveApply, upd_piece, if_pos hp, upd_record, piece_at]
  rw [hfin, hsMid]

theorem move_fst (tbl : HashTable) (g : Game) (f t : Square) (p : Nat)
    (h : is_legal_move g f t p = true) :
    (move tbl g f t p).1 = moveClassify tbl g f t p := by
  simp [move, h]

theorem move_snd (tbl : HashTable) (g : Game) (f t : Square) (p : Nat)
    (h : is_legal_move g f t p = true) :
    (move tbl g f t p).2 = moveApply tbl g f t p := by
  simp [move, h]

/-- A quiet legal move played at clock 99 pushes the clock to 100, so the
classification can only be a draw or a checkmate delivered by the move. -/
theorem moveClassify_final_quiet (tbl : HashTable) (g : Game) (f t : Square) (p : Nat)
    (h99 : g.halfmove_clock = 99)
    (hpawn : (piece_at g f) &&& PAWN = 0)
    (hdest : piece_at g t = EMPTY)
    (hguard : castlingGuardB g f t = true) :
    moveClassify tbl g f t p = DRAW ∨
    (moveClassify tbl g f t p = CHECKMATE ∧
     can_make_any_move (moveApply tbl g f t p) = false ∧
     is_checked FUEL (moveApply tbl g f t p) (moveApply tbl g f t p).side_to_move = true) := by
  have hclock : (moveApply tbl g f t p).halfmove_clock = 100 := by
    rw [moveApply_clock_quiet tbl g f t p hpawn hdest hguard, h99]
    omega
  simp only [moveClassify]
  split
  · exact Or.inl rfl
  · split
    · exact Or.inl rfl
    · split
      · split
        · next hnm hchk =>
          right
          refine ⟨rfl, ?_, hchk⟩
          simpa using hnm
        · exact Or.inl rfl
      · exact Or.inl rfl

/-- Unfolded head of a quiet run. -/
theorem quietRun_cons {tbl : HashTable} {g : Game} {m : Square × Square × Nat}
    {ms : List (Square × Square × Nat)} (hq : quietRun tbl g (m :: ms) = true) :
    is_legal_move g m.1 m.2.1 m.2.2 = true ∧
    (piece_at g m.1) &&& PAWN = 0 ∧
    piece_at g m.2.1 = EMPTY ∧
    castlingGuardB g m.1 m.2.1 = true ∧
    quietRun tbl (move tbl g m.1 m.2.1 m.2.2).2 ms = true := by
  simp only [quietRun, Bool.and_eq_true, beq_iff_eq] at hq
  exact ⟨hq.1.1.1.1, hq.1.1.1.2, hq.1.1.2, hq.1.2, hq.2⟩

/-- The fifty-move window: one hundred quiet legal moves from a fresh clock
run end in a draw, unless the last one delivers checkmate. -/
theorem runMoves_quiet_draw (tbl : HashTable) :
    ∀ (ms : List (Square × Square × Nat)) (g : Game),
      g.halfmove_clock + ms.length = 100 →
      quietRun tbl g ms = true →
      ms ≠ [] →
      runMoves tbl g ms = DRAW ∨
      (runMoves tbl g ms = CHECKMATE ∧
       can_make_any_move (playAll tbl g ms) = false ∧
       is_checked FUEL (playAll tbl g ms) (playAll tbl g ms).side_to_move = true) := by
  intro ms
  induction ms with
  | nil =>
    intro g hclock hq hne
    exact absurd rfl hne
  | cons m ms ih =>
    intro g hclock hq hne
    obtain ⟨hleg, hpawn, hdest, hguard, htail⟩ := quietRun_cons hq
    cases ms with
    | nil =>
      have h99 : g.halfmove_clock = 99 := by
        simp only [List.length_cons, List.length_nil] at hclock
        omega
      have hrun : runMoves tbl g [m] = moveClassify tbl g m.1 m.2.1 m.2.2 := by
        simp only [runMoves]
        exact move_fst tbl g m.1 m.2.1 m.2.2 hleg
      have hplay : playAll tbl g [m] = moveApply tbl g m.1 m.2.1 m.2.2 := by
        simp only [playAll, List.foldl_cons, List.foldl_nil]
        exact move_snd tbl g m.1 m.2.1 m.2.2 hleg
      rw [hrun, hplay]
      exact moveClassify_final_quiet tbl g m.1 m.2.1 m.2.2 h99 hpawn hdest hguard
    | cons m2 ms2 =>
      have hstep : (move tbl g m.1 m.2.1 m.2.2).2 = moveApply tbl g m.1 m.2.1 m.2.2 :=
        move_snd tbl g m.1 m.2.1 m.2.2 hleg
      have hclock2 : (moveApply tbl g m.1 m.2.1 m.2.2).halfmove_clock =
          g.halfmove_clock + 1 :=
        moveApply_clock_quiet tbl g m.1 m.2.1 m.2.2 hpawn hdest hguard
      have hnext := ih ((move tbl g m.1 m.2.1 m.2.2).2)
        (by
          rw [hstep, hclock2]
          simp only [List.length_cons] at hclock ⊢
          omega)
        htail (by simp)
      have hrunEq : runMoves tbl g (m :: m2 :: ms2) =
          runMoves tbl (move tbl g m.1 m.2.1 m.2.2).2 (m2 :: ms2) := rfl
      have hplayEq : playAll tbl g (m :: m2 :: ms2) =
          playAll tbl (move tbl g m.1 m.2.1 m.2.2).2 (m2 :: ms2) := by
        simp [playAll]
      rw [hrunEq, hplayEq]
      exact hnext

/-- Every position fen_to_game produces carries a clock in 0..100: the last
parsing step rejects anything else. -/
theorem fen_to_game_clock {s : List Char} {g : Game}
    (h : fen_to_game s = some g) :
    0 ≤ g.halfmove_clock ∧ g.halfmove_clock ≤ 100 := by
  unfold fen_to_game at h
  repeat' split at h
  all_goals try exact Option.noConfusion h
  all_goals obtain rfl : _ = g := Option.some.inj h
  all_goals constructor <;> simp <;> omega

/-- What parse_move leaves in the caller buffer: always the truncation at
the first newline, and additionally the lowercasing only when the
truncated length passes the 4..5 gate. -/
theorem parse_move_buffer (tbl : HashTable) (g : Game) (s : List Char) :
    ((stripNewlines s).length < 4 ∨ (stripNewlines s).length > 5 →
      parse_move tbl g s = (ILLEGAL, g, stripNewlines s)) ∧
    (4 ≤ (stripNewlines s).length → (stripNewlines s).length ≤ 5 →
      (parse_move tbl g s).2.2 = (stripNewlines s).map tolowerChar) := by
  constructor
  · intro hlen
    simp only [parse_move, if_pos hlen]
  · intro h4 h5
    have hlen : ¬ ((stripNewlines s).length < 4 ∨ (stripNewlines s).length > 5) := by omega
    simp only [parse_move, if_neg hlen]

/-! ## The claims -/

set_option maxRecDepth 100000

/-- C1: the claim states that applying a legal en passant capture removes
the captured pawn, leaving EMPTY on the square adjacent to the destination
on the origin rank.  The code does not: the removal statement of game.c
line 594 compares with == instead of assigning, and its guard reads the
origin square that the relocation has already emptied.  At the concrete
position g1c the capture e5xd6 is legal and is applied, yet the captured
black pawn is still standing on d5 afterwards. -/
theorem c1_en_passant_pawn_not_removed :
    is_legal_move g1c ⟨4, 4⟩ ⟨3, 5⟩ EMPTY = true ∧
    piece_at g1c ⟨4, 4⟩ = WHITE ||| PAWN ∧
    piece_at g1c ⟨3, 5⟩ = EMPTY ∧
    g1c.en_passant_file = 3 ∧
    (move tbl0 g1c ⟨4, 4⟩ ⟨3, 5⟩ EMPTY).1 = DEFAULT ∧
    piece_at (move tbl0 g1c ⟨4, 4⟩ ⟨3, 5⟩ EMPTY).2 ⟨3, 4⟩ = BLACK ||| PAWN := by
  decide

/-- C2: when is_legal_move rejects a request, move() returns ILLEGAL and
hands back the position unchanged, and calling it again with the same
request again returns ILLEGAL on the unchanged position. -/
theorem c2_illegal_move_rejected (tbl : HashTable) (g : Game) (f t : Square) (p : Nat)
    (h : is_legal_move g f t p = false) :
    (move tbl g f t p).1 = ILLEGAL ∧ (move tbl g f t p).2 = g ∧
    (move tbl (move tbl g f t p).2 f t p).1 = ILLEGAL ∧
    (move tbl (move tbl g f t p).2 f t p).2 = g := by
  simp [move_illegal tbl g f t p h]

theorem c2_witness :
    is_legal_move gW ⟨-1, 0⟩ ⟨0, 0⟩ EMPTY = false ∧
    ((move tbl0 gW ⟨-1, 0⟩ ⟨0, 0⟩ EMPTY).1 = ILLEGAL ∧
     (move tbl0 gW ⟨-1, 0⟩ ⟨0, 0⟩ EMPTY).2 = gW ∧
     (move tbl0 (move tbl0 gW ⟨-1, 0⟩ ⟨0, 0⟩ EMPTY).2 ⟨-1, 0⟩ ⟨0, 0⟩ EMPTY).1 = ILLEGAL ∧
     (move tbl0 (move tbl0 gW ⟨-1, 0⟩ ⟨0, 0⟩ EMPTY).2 ⟨-1, 0⟩ ⟨0, 0⟩ EMPTY).2 = gW) :=
  ⟨by decide, c2_illegal_move_rejected tbl0 gW ⟨-1, 0⟩ ⟨0, 0⟩ EMPTY (by decide)⟩

/-- C3 counterexample: the claim promises CHECKMATE whenever the side to
move after a legal move has no legal reply and is in check, but move()
tests the threefold-repetition count first.  From g3c (clock 1,
an all-zero recorded history, the all-zero hash table) the mating move
Rh2-h8 leaves Black without a move and in check, yet move() returns
DRAW. -/
theorem c3_counterexample :
    is_legal_move g3c ⟨7, 1⟩ ⟨7, 7⟩ EMPTY = true ∧
    can_make_any_move (moveApply tbl0 g3c ⟨7, 1⟩ ⟨7, 7⟩ EMPTY) = false ∧
    is_checked FUEL (moveApply tbl0 g3c ⟨7, 1⟩ ⟨7, 7⟩ EMPTY)
      (moveApply tbl0 g3c ⟨7, 1⟩ ⟨7, 7⟩ EMPTY).side_to_move = true ∧
    (move tbl0 g3c ⟨7, 1⟩ ⟨7, 7⟩ EMPTY).1 = DRAW := by
  decide

/-- C3 amended: for every legal move after which the side to move has no
legal reply, move() returns CHECKMATE when that side is checked and DRAW
otherwise, provided the earlier draw returns do not fire: the repetition
count of the new position is not exactly three and material is still
sufficient. -/
theorem c3_checkmate_classification (tbl : HashTable) (g : Game) (f t : Square) (p : Nat)
    (hleg : is_legal_move g f t p = true)
    (hnm : can_make_any_move (moveApply tbl g f t p) = false)
    (hrep : repetition_count (moveApply tbl g f t p) ≠ 3)
    (hmat : enough_material (moveApply tbl g f t p) = true) :
    (move tbl g f t p).1 =
      (if is_checked FUEL (moveApply tbl g f t p) (moveApply tbl g f t p).side_to_move
       then CHECKMATE else DRAW) := by
  rw [move_fst tbl g f t p hleg]
  simp [moveClassify, hrep, hmat, hnm]

theorem c3_witness :
    is_legal_move g3w ⟨7, 1⟩ ⟨7, 7⟩ EMPTY = true ∧
    can_make_any_move (moveApply tbl0 g3w ⟨7, 1⟩ ⟨7, 7⟩ EMPTY) = false ∧
    repetition_count (moveApply tbl0 g3w ⟨7, 1⟩ ⟨7, 7⟩ EMPTY) ≠ 3 ∧
    enough_material (moveApply tbl0 g3w ⟨7, 1⟩ ⟨7, 7⟩ EMPTY) = true ∧
    (move tbl0 g3w ⟨7, 1⟩ ⟨7, 7⟩ EMPTY).1 =
      (if is_checked FUEL (moveApply tbl0 g3w ⟨7, 1⟩ ⟨7, 7⟩ EMPTY)
          (moveApply tbl0 g3w ⟨7, 1⟩ ⟨7, 7⟩ EMPTY).side_to_move
       then CHECKMATE else DRAW) :=
  ⟨by decide, by decide, by decide, by decide,
   c3_checkmate_classification tbl0 g3w ⟨7, 1⟩ ⟨7, 7⟩ EMPTY
     (by decide) (by decide) (by decide) (by decide)⟩

/-- C4: the claim (and the comment above the code) says the en passant
value enters the fingerprint exactly when a side-to-move pawn stands on an
adjacent file, files 0 and 7 included.  The guards of game.c lines 186 and
190 read file - 1 >= 1 and file + 1 <= 6, so a capturing pawn on file 0
(or 7) is never seen.  In g4c (White to move, en_passant_file 1, white
pawn on file 0 rank 4) the table value for file 1 is 1 and every other
table entry is 0: the fingerprint comes out 0, without the en passant
value, although the adjacent pawn could capture; moving the same pawn to
file 2 (g4c2) makes the fingerprint 1. -/
theorem c4_en_passant_hash_ignores_edge_files :
    g4c.side_to_move = WHITE ∧
    g4c.en_passant_file = 1 ∧
    piece_at g4c ⟨0, 4⟩ = WHITE ||| PAWN ∧
    tbl4.en_passant_hash 1 = 1 ∧
    hash tbl4 g4c = 0 ∧
    hash tbl4 g4c2 = 1 := by
  decide

/-- C5: the claim says fen_to_game fails exactly on the listed malformed
inputs, among them a rank that does not sum to exactly 8 files.  The
placement loop never checks that a rank is complete: the FEN below, whose
first rank lists seven files, is accepted and yields a position (the
unlisted file stays EMPTY), contradicting the doc comment of the function
(return NULL on incorrect FEN format). -/
theorem c5_underfull_rank_accepted :
    (fen_to_game fen5).isSome = true ∧
    (fen_to_game fen5).map (fun g => piece_at g ⟨0, 0⟩) = some (WHITE ||| KING) ∧
    (fen_to_game fen5).map (fun g => piece_at g ⟨7, 0⟩) = some EMPTY ∧
    (fen_to_game fen5).map (fun g => piece_at g ⟨0, 7⟩) = some (BLACK ||| KING) := by
  decide

set_option maxHeartbeats 4000000 in
/-- C6 counterexample: the claim promises DRAW on the 100th application of
a quiet sequence, but move() classifies checkmate and stalemate before it
reaches the fifty-move test.  The hundred quiet legal moves of ms6 from
g6c (no pawn moves, no captures) end with the mate Rh2-h8, and the 100th
application returns CHECKMATE, not DRAW. -/
theorem c6_counterexample :
    ms6.length = 100 ∧
    g6c.halfmove_clock = 0 ∧
    quietRun tbl0 g6c ms6 = true ∧
    runMoves tbl0 g6c ms6 = CHECKMATE := by
  refine ⟨by decide, by decide, by decide, by decide⟩

/-- C6 amended: starting from a position with halfmove clock 0, one
hundred applied legal moves, none a pawn move or a capture and every
two-file king move starting from the standard file 4 origin, make the
100th application return DRAW, unless that move leaves the opponent
without any legal move while in check, in which case it returns
CHECKMATE; and any applied legal pawn move or capture (same castling
guard) resets the halfmove clock to 0. -/
theorem c6_fifty_move_rule :
    (∀ (tbl : HashTable) (g : Game) (ms : List (Square × Square × Nat)),
      g.halfmove_clock = 0 → ms.length = 100 → quietRun tbl g ms = true →
      runMoves tbl g ms = DRAW ∨
      (runMoves tbl g ms = CHECKMATE ∧
       can_make_any_move (playAll tbl g ms) = false ∧
       is_checked FUEL (playAll tbl g ms) (playAll tbl g ms).side_to_move = true)) ∧
    (∀ (tbl : HashTable) (g : Game) (f t : Square) (p : Nat),
      is_legal_move g f t p = true → castlingGuardB g f t = true →
      ((piece_at g f) &&& PAWN ≠ 0 ∨ piece_at g t ≠ EMPTY) →
      (move tbl g f t p).2.halfmove_clock = 0) := by
  constructor
  · intro tbl g ms h0 hlen hq
    refine runMoves_quiet_draw tbl ms g (by omega) hq ?_
    intro hnil
    subst hnil
    simp at hlen
  · intro tbl g f t p hleg hguard hreset
    rw [move_snd tbl g f t p hleg, moveApply_clock]
    set gR := upd_rights (upd_baseline tbl g) f with hgR
    have hboard : gR.board = g.board := by
      rw [hgR, upd_rights_board, upd_baseline_board]
    have hguardR : castlingGuardB gR f t = true := by
      simpa [castlingGuardB, piece_at_board_eq hboard] using hguard
    obtain ⟨hqf, hqt⟩ := upd_castle_rook_piece_quiet gR f t hguardR
    rw [if_pos]
    rw [hqf, hqt, piece_at_board_eq hboard f, piece_at_board_eq hboard t]
    exact hreset

set_option maxHeartbeats 8000000 in
theorem c6_witness :
    g6c.halfmove_clock = 0 ∧ ms6w.length = 100 ∧ quietRun tbl0 g6c ms6w = true ∧
    (runMoves tbl0 g6c ms6w = DRAW ∨
     (runMoves tbl0 g6c ms6w = CHECKMATE ∧
      can_make_any_move (playAll tbl0 g6c ms6w) = false ∧
      is_checked FUEL (playAll tbl0 g6c ms6w) (playAll tbl0 g6c ms6w).side_to_move = true)) := by
  have hq : quietRun tbl0 g6c ms6w = true := by decide
  exact ⟨rfl, by decide, hq, c6_fifty_move_rule.1 tbl0 g6c ms6w rfl (by decide) hq⟩

/-- C7 counterexample: the claim says a pawn reaching the last rank is
legal only when promotion IS one of KNIGHT, BISHOP, ROOK, QUEEN.  The code
masks the argument with PIECE_TYPE first (game.c line 448), so the
already-colored piece value WHITE|QUEEN also passes: the promotion a7-a8
below is legal although WHITE|QUEEN is none of the four bare type
values (and not empty). -/
theorem c7_counterexample :
    piece_at g7c ⟨0, 6⟩ = WHITE ||| PAWN ∧
    g7c.side_to_move = WHITE ∧
    is_legal_move g7c ⟨0, 6⟩ ⟨0, 7⟩ (WHITE ||| QUEEN) = true ∧
    (WHITE ||| QUEEN) ≠ KNIGHT ∧ (WHITE ||| QUEEN) ≠ BISHOP ∧
    (WHITE ||| QUEEN) ≠ ROOK ∧ (WHITE ||| QUEEN) ≠ QUEEN ∧
    (WHITE ||| QUEEN) ≠ EMPTY := by
  decide

/-- C7 amended: past the earlier legality checks, a pawn reaching the
farthest rank for the side to move is legal only when the piece-type
component of promotion (promotion AND PIECE_TYPE) is KNIGHT, BISHOP, ROOK
or QUEEN; any other move is legal only when promotion is empty; and a
legal promotion move leaves the promoted piece type, colored for the
moving side, on the destination square. -/
theorem c7_promotion_rules :
    (∀ (g : Game) (f t : Square) (p : Nat),
      is_legal_move g f t p = true →
      (piece_at g f) &&& PAWN ≠ 0 →
      t.rank = (if g.side_to_move = WHITE then (7 : Int) else 0) →
      p &&& PIECE_TYPE = KNIGHT ∨ p &&& PIECE_TYPE = BISHOP ∨
      p &&& PIECE_TYPE = ROOK ∨ p &&& PIECE_TYPE = QUEEN) ∧
    (∀ (g : Game) (f t : Square) (p : Nat),
      is_legal_move g f t p = true →
      ¬ ((piece_at g f) &&& PAWN ≠ 0 ∧
         t.rank = (if g.side_to_move = WHITE then (7 : Int) else 0)) →
      p = EMPTY) ∧
    (∀ (tbl : HashTable) (g : Game) (f t : Square) (p : Nat),
      is_legal_move g f t p = true → p ≠ EMPTY → p < 256 → boardWF g.board = true →
      piece_at (move tbl g f t p).2 t = (p &&& PIECE_TYPE) ||| g.side_to_move) := by
  refine ⟨fun g f t p hleg hpawn hlast => is_legal_promotion_type hleg hpawn hlast,
          fun g f t p hleg hnot => is_legal_promotion_empty hleg hnot,
          fun tbl g f t p hleg hp hlt hwf => ?_⟩
  rw [move_snd tbl g f t p hleg, moveApply_promoted tbl g f t p hleg hp hwf]
  have hmask : ∀ q < 256, q &&& NOT_COLOR = q &&& PIECE_TYPE := by decide
  rw [hmask p hlt]

theorem c7_witness :
    (is_legal_move g7c ⟨0, 6⟩ ⟨0, 7⟩ QUEEN = true ∧
     (QUEEN &&& PIECE_TYPE = KNIGHT ∨ QUEEN &&& PIECE_TYPE = BISHOP ∨
      QUEEN &&& PIECE_TYPE = ROOK ∨ QUEEN &&& PIECE_TYPE = QUEEN)) ∧
    (is_legal_move g3w ⟨7, 1⟩ ⟨7, 2⟩ EMPTY = true ∧ (EMPTY : Nat) = EMPTY) ∧
    (QUEEN ≠ EMPTY ∧ QUEEN < 256 ∧ boardWF g7c.board = true ∧
     piece_at (move tbl0 g7c ⟨0, 6⟩ ⟨0, 7⟩ QUEEN).2 ⟨0, 7⟩ =
       (QUEEN &&& PIECE_TYPE) ||| g7c.side_to_move) :=
  ⟨⟨by decide, c7_promotion_rules.1 g7c ⟨0, 6⟩ ⟨0, 7⟩ QUEEN (by decide) (by decide) (by decide)⟩,
   ⟨by decide, c7_promotion_rules.2.1 g3w ⟨7, 1⟩ ⟨7, 2⟩ EMPTY (by decide) (by decide)⟩,
   by decide, by decide, by decide,
   c7_promotion_rules.2.2 tbl0 g7c ⟨0, 6⟩ ⟨0, 7⟩ QUEEN (by decide) (by decide) (by decide)
     (by decide)⟩

/-- C8: castling availability never grows under move(): the availability
sets after any call (legal or not) are bitwise submasks of what they were
before, so a cleared flag stays cleared and no flag is ever set. -/
theorem c8_castling_rights_monotone (tbl : HashTable) (g : Game) (f t : Square) (p : Nat) :
    (move tbl g f t p).2.white_castling_avail &&& g.white_castling_avail =
      (move tbl g f t p).2.white_castling_avail ∧
    (move tbl g f t p).2.black_castling_avail &&& g.black_castling_avail =
      (move tbl g f t p).2.black_castling_avail := by
  cases hleg : is_legal_move g f t p with
  | false =>
    rw [move_illegal tbl g f t p hleg]
    exact ⟨Nat.and_self _, Nat.and_self _⟩
  | true =>
    rw [move_snd tbl g f t p hleg]
    have hw : (moveApply tbl g f t p).white_castling_avail =
        (upd_rights (upd_baseline tbl g) f).white_castling_avail := by
      simp only [moveApply, upd_record_white, upd_piece_white, upd_clock_white,
        upd_en_passant_white, upd_castle_rook_white]
    have hb : (moveApply tbl g f t p).black_castling_avail =
        (upd_rights (upd_baseline tbl g) f).black_castling_avail := by
      simp only [moveApply, upd_record_black, upd_piece_black, upd_clock_black,
        upd_en_passant_black, upd_castle_rook_black]
    rw [hw, hb]
    constructor
    · have h := upd_rights_white_submask (upd_baseline tbl g) f
      rwa [upd_baseline_white] at h
    · have h := upd_rights_black_submask (upd_baseline tbl g) f
      rwa [upd_baseline_black] at h

/-- C9 counterexample: the claim says every position satisfying
0 <= halfmove_clock <= 100 still satisfies it after any apply_move call.
g9c satisfies the invariant with clock exactly 100, the rook move h2-h3
is legal and quiet, and afterwards the clock stands at 101 (and line 597
would index position_history[101], beyond the 101-slot history). -/
theorem c9_counterexample :
    (0 ≤ g9c.halfmove_clock ∧ g9c.halfmove_clock ≤ 100) ∧
    is_legal_move g9c ⟨7, 1⟩ ⟨7, 2⟩ EMPTY = true ∧
    (move tbl0 g9c ⟨7, 1⟩ ⟨7, 2⟩ EMPTY).2.halfmove_clock = 101 := by
  decide

/-- C9 amended: every position fen_to_game returns satisfies
0 <= halfmove_clock <= 100, and every position with clock at most 99
still satisfies the invariant after any move() call (the clock either
resets to 0 or increments once), so the history index stays at most 100;
only a position already at clock 100 can be pushed to 101. -/
theorem c9_clock_bounds :
    (∀ (s : List Char) (g : Game), fen_to_game s = some g →
      0 ≤ g.halfmove_clock ∧ g.halfmove_clock ≤ 100) ∧
    (∀ (tbl : HashTable) (g : Game) (f t : Square) (p : Nat),
      0 ≤ g.halfmove_clock → g.halfmove_clock ≤ 99 →
      0 ≤ (move tbl g f t p).2.halfmove_clock ∧
      (move tbl g f t p).2.halfmove_clock ≤ 100) := by
  constructor
  · exact fun s g h => fen_to_game_clock h
  · intro tbl g f t p h0 h99
    cases hleg : is_legal_move g f t p with
    | false =>
      rw [move_illegal tbl g f t p hleg]
      show 0 ≤ g.halfmove_clock ∧ g.halfmove_clock ≤ 100
      exact ⟨h0, by omega⟩
    | true =>
      rw [move_snd tbl g f t p hleg]
      rcases moveApply_clock_cases tbl g f t p with h | h <;> rw [h] <;>
        constructor <;> omega

/-- A FEN with halfmove clock 42 used to witness the parser bound. -/
def fen9w : List Char := "k7/8/8/8/8/8/8/K7 w - - 42".data

theorem c9_witness :
    (0 ≤ ((fen_to_game fen9w).getD gW).halfmove_clock ∧
     ((fen_to_game fen9w).getD gW).halfmove_clock ≤ 100) ∧
    (0 ≤ (move tbl0 g3w ⟨7, 1⟩ ⟨7, 2⟩ EMPTY).2.halfmove_clock ∧
     (move tbl0 g3w ⟨7, 1⟩ ⟨7, 2⟩ EMPTY).2.halfmove_clock ≤ 100) := by
  constructor
  · have hsome : (fen_to_game fen9w).isSome = true := by decide
    have heq : fen_to_game fen9w = some ((fen_to_game fen9w).getD gW) := by
      cases hfg : fen_to_game fen9w with
      | none => rw [hfg] at hsome; simp at hsome
      | some gg => simp [hfg]
    exact c9_clock_bounds.1 fen9w _ heq
  · exact c9_clock_bounds.2 tbl0 g3w ⟨7, 1⟩ ⟨7, 2⟩ EMPTY (by decide) (by decide)

/-- C10 counterexample: the claim says parse_move truncates AND lowercases
the caller buffer before any legality decision.  For a token whose
truncated length falls outside 4..5 the function returns ILLEGAL before
the lowercasing loop runs: the buffer keeps its uppercase letters. -/
theorem c10_counterexample :
    (parse_move tbl0 gW "E2E4QQ\n".data).1 = ILLEGAL ∧
    (parse_move tbl0 gW "E2E4QQ\n".data).2.2 = "E2E4QQ".data ∧
    (parse_move tbl0 gW "E2E4QQ\n".data).2.2 ≠
      (stripNewlines "E2E4QQ\n".data).map tolowerChar := by
  decide

/-- C10 amended: parse_move always truncates the caller buffer at the
first carriage return or newline before any legality decision; when the
truncated length is 4 or 5 it additionally lowercases every remaining
character before parsing, and otherwise it returns ILLEGAL with the
buffer truncated but its case preserved. -/
theorem c10_parse_move_buffer (tbl : HashTable) (g : Game) (s : List Char) :
    ((stripNewlines s).length < 4 ∨ (stripNewlines s).length > 5 →
      parse_move tbl g s = (ILLEGAL, g, stripNewlines s)) ∧
    (4 ≤ (stripNewlines s).length → (stripNewlines s).length ≤ 5 →
      (parse_move tbl g s).2.2 = (stripNewlines s).map tolowerChar) :=
  parse_move_buffer tbl g s

theorem c10_witness :
    parse_move tbl0 gW "E2E5QQ\n".data = (ILLEGAL, gW, stripNewlines "E2E5QQ\n".data) ∧
    (parse_move tbl0 gW "E2E4\n".data).2.2 =
      (stripNewlines "E2E4\n".data).map tolowerChar :=
  ⟨(c10_parse_move_buffer tbl0 gW ("E2E5QQ\n".data)).1 (by decide),
   (c10_parse_move_buffer tbl0 gW ("E2E4\n".data)).2 (by decide) (by decide)⟩
end DharmaChess
